import Mathlib

/-!
Verification of `bigcode_eval/logging_utils.py` (the `WandbLogger` results
forwarder) against its natural-language specification.

The Python module is embedded shallowly:

* Python values that can appear inside a results bundle are modelled by the
  inductive type `PyVal` (`None`, `bool`, `int`, `str`, `list`, `dict` with
  string keys, plus the non-JSON-serializable shapes the module singles out:
  `np.int64`, `np.int32`, `set`, and a catch-all `pyOther` carrying the
  `str()` rendering of an otherwise unknown object).
* Python dictionaries are association lists (`Dict α`) with the Python
  insertion-order semantics: assignment to an existing key updates it in
  place, assignment to a fresh key appends, `pop` removes the entry and
  raises `KeyError` when the key is absent.
* Fallible statements return `Except String`, the error string naming the
  Python exception that the corresponding line would raise.
* `json.dumps(..., default=_handle_non_serializable)` composed with a JSON
  parse is modelled by `jsonDumps : PyVal → JVal`, where `JVal` is the JSON
  document tree.
-/

set_option autoImplicit false

namespace LoggingUtils

/-- Python values appearing in results bundles and constructor kwargs. -/
inductive PyVal where
  | pyNone : PyVal
  | pyBool : Bool → PyVal
  | pyInt : Int → PyVal
  | pyStr : String → PyVal
  | pyList : List PyVal → PyVal
  | pyDict : List (String × PyVal) → PyVal
  | npInt64 : Int → PyVal
  | npInt32 : Int → PyVal
  | pySet : List PyVal → PyVal
  | pyOther : String → PyVal

/-- JSON documents, as produced by `json.dumps` and read back by a parser. -/
inductive JVal where
  | jNull : JVal
  | jBool : Bool → JVal
  | jInt : Int → JVal
  | jStr : String → JVal
  | jArr : List JVal → JVal
  | jObj : List (String × JVal) → JVal

/-- A Python `dict` with string keys, in insertion order. -/
abbrev Dict (α : Type) : Type := List (String × α)

/-- Lookup (`d[k]` / `d.get(k)`): first entry with the given key. -/
def dictGet {α : Type} (d : Dict α) (k : String) : Option α :=
  match d with
  | [] => none
  | (k2, v) :: rest => if k2 = k then some v else dictGet rest k

/-- Assignment `d[k] = v`: update in place when the key exists, append otherwise. -/
def dictSet {α : Type} (d : Dict α) (k : String) (v : α) : Dict α :=
  match d with
  | [] => [(k, v)]
  | (k2, v2) :: rest => if k2 = k then (k2, v) :: rest else (k2, v2) :: dictSet rest k v

/-- Model of `d.pop(k)` without a default: `none` models the `KeyError` on a missing key. -/
def dictPop {α : Type} (d : Dict α) (k : String) : Option (Dict α) :=
  match d with
  | [] => none
  | (k2, v2) :: rest =>
    if k2 = k then some rest
    else (dictPop rest k).map (fun r => (k2, v2) :: r)

/-- Effect of `d.pop(k, default)` on the dictionary: remove the key if present. -/
def dictErase {α : Type} (d : Dict α) (k : String) : Dict α :=
  match d with
  | [] => []
  | (k2, v2) :: rest => if k2 = k then rest else (k2, v2) :: dictErase rest k

/-- Model of `list(d.keys())`. -/
def dictKeys {α : Type} (d : Dict α) : List String :=
  d.map Prod.fst


/-! Section: Serialization (`_handle_non_serializable` and `json.dumps`) -/

/-- Python `str(o)`, as far as this module observes it.  The JSON serializer
only ever applies it to objects of unknown type, whose rendering the
`pyOther` constructor carries verbatim; the other cases follow the Python
printed forms for completeness. -/
def pyToString : PyVal → String
  | .pyNone => "None"
  | .pyBool true => "True"
  | .pyBool false => "False"
  | .pyInt n => toString n
  | .pyStr s => s
  | .pyList _ => "[...]"
  | .pyDict _ => "\x7b...\x7d"
  | .npInt64 n => toString n
  | .npInt32 n => toString n
  | .pySet _ => "\x7b...\x7d"
  | .pyOther s => s

/-- Test `isinstance(o, np.int64) or isinstance(o, np.int32)`. -/
def isNpInt : PyVal → Bool
  | .npInt64 _ => true
  | .npInt32 _ => true
  | _ => false

/-- Test `isinstance(o, set)`. -/
def isSet : PyVal → Bool
  | .pySet _ => true
  | _ => false

/-- Types `json.dumps` serializes without consulting the `default` hook
(`None`, `bool`, `int`, `str`, `list`, `dict`; the bundle model has no floats). -/
def nativelySerializable : PyVal → Bool
  | .pyNone => true
  | .pyBool _ => true
  | .pyInt _ => true
  | .pyStr _ => true
  | .pyList _ => true
  | .pyDict _ => true
  | _ => false

/-- Function `_handle_non_serializable` (logging_utils.py lines 105-119): np.int64 and
np.int32 become plain ints, sets become lists in iteration order, everything
else becomes its `str()` form. -/
def handle_non_serializable (o : PyVal) : PyVal :=
  if isNpInt o then
    match o with
    | .npInt64 n => .pyInt n
    | .npInt32 n => .pyInt n
    | _ => .pyInt 0
  else if isSet o then
    match o with
    | .pySet xs => .pyList xs
    | _ => .pyList []
  else
    .pyStr (pyToString o)

mutual

/-- Model of `json.dumps(v, default=_handle_non_serializable)` followed by a JSON
parse of the emitted text: natively serializable values map structurally,
and any other value is replaced by what the `default` hook returns for it
(which the serializer then processes recursively). -/
def jsonDumps : PyVal → JVal
  | .pyNone => .jNull
  | .pyBool b => .jBool b
  | .pyInt n => .jInt n
  | .pyStr s => .jStr s
  | .pyList xs => .jArr (jsonDumpsList xs)
  | .pyDict es => .jObj (jsonDumpsEntries es)
  | .npInt64 n => .jInt n
  | .npInt32 n => .jInt n
  | .pySet xs => .jArr (jsonDumpsList xs)
  | .pyOther s => .jStr s

/-- Elementwise serialization of a Python list. -/
def jsonDumpsList : List PyVal → List JVal
  | [] => []
  | x :: xs => jsonDumps x :: jsonDumpsList xs

/-- Entrywise serialization of a Python dict (string keys kept as JSON keys). -/
def jsonDumpsEntries : List (String × PyVal) → List (String × JVal)
  | [] => []
  | (k, v) :: es => (k, jsonDumps v) :: jsonDumpsEntries es

end

mutual

/-- Model of `json.loads` of a JSON document: the Python value a parse produces. -/
def jvalToPy : JVal → PyVal
  | .jNull => .pyNone
  | .jBool b => .pyBool b
  | .jInt n => .pyInt n
  | .jStr s => .pyStr s
  | .jArr xs => .pyList (jvalToPyList xs)
  | .jObj es => .pyDict (jvalToPyEntries es)

/-- Elementwise parse of a JSON array. -/
def jvalToPyList : List JVal → List PyVal
  | [] => []
  | x :: xs => jvalToPy x :: jvalToPyList xs

/-- Entrywise parse of a JSON object. -/
def jvalToPyEntries : List (String × JVal) → List (String × PyVal)
  | [] => []
  | (k, v) :: es => (k, jvalToPy v) :: jvalToPyEntries es

end

mutual

/-- The round-trip image the spec describes: the bundle reproduced except
that 64-bit and 32-bit integers decode as plain integers, sets decode as
sequences with the same elements, and other unsupported values decode as
their string form.  Written from the words of the spec, to be compared with
`jvalToPy ∘ jsonDumps`. -/
def specRoundTrip : PyVal → PyVal
  | .pyNone => .pyNone
  | .pyBool b => .pyBool b
  | .pyInt n => .pyInt n
  | .pyStr s => .pyStr s
  | .pyList xs => .pyList (specRoundTripList xs)
  | .pyDict es => .pyDict (specRoundTripEntries es)
  | .npInt64 n => .pyInt n
  | .npInt32 n => .pyInt n
  | .pySet xs => .pyList (specRoundTripList xs)
  | .pyOther s => .pyStr s

/-- Elementwise round-trip image of a list. -/
def specRoundTripList : List PyVal → List PyVal
  | [] => []
  | x :: xs => specRoundTrip x :: specRoundTripList xs

/-- Entrywise round-trip image of a dict. -/
def specRoundTripEntries : List (String × PyVal) → List (String × PyVal)
  | [] => []
  | (k, v) :: es => (k, specRoundTrip v) :: specRoundTripEntries es

end


/-! Section: Constructor (`WandbLogger.__init__`, logging_utils.py lines 21-58) -/

/-- State of the external `wandb` SDK in the running process. -/
structure Sdk where
  /-- Whether `import wandb` succeeds. -/
  installed : Bool
  /-- Release segments of `wandb.__version__` (e.g. `[0, 13, 6]`). -/
  version : List Nat
  /-- Whether `wandb.run` is already a live run (not `None`). -/
  hasActiveRun : Bool

/-- Strict comparison of release-segment lists, as `packaging.version.Version`
orders releases: lexicographic, a missing segment reading as zero being
smaller than any positive continuation. -/
def versionSegLt : List Nat → List Nat → Bool
  | [], [] => false
  | [], _ :: _ => true
  | _ :: _, [] => false
  | a :: as, b :: bs => if a < b then true else if b < a then false else versionSegLt as bs

/-- Value `Version("0.13.6")`, the minimum supported SDK version. -/
def minVersionSegs : List Nat := [0, 13, 6]

/-- Observable outcome of the `try:` block at lines 30-41. -/
structure TryResult where
  /-- Whether the local name `wandb` ends up bound (i.e. the `import` succeeded). -/
  wandbBound : Bool
  /-- Whether `wandb.require("report-editing:v0")` (line 35) was called. -/
  requireCalled : Bool
  /-- The exception caught by `except Exception` (line 36), if any. -/
  caught : Option String

/-- Lines 30-41: `import wandb`, then `assert Version(wandb.__version__) >=
Version("0.13.6")`, then `if Version(wandb.__version__) < Version("0.13.6"):
wandb.require("report-editing:v0")`; any exception is caught and logged as a
warning.  The guard at line 34 is only reached when the assertion at line 33
has already succeeded. -/
def initTryBlock (sdk : Sdk) : TryResult :=
  if sdk.installed = false then
    { wandbBound := false, requireCalled := false, caught := some "ImportError" }
  else if versionSegLt sdk.version minVersionSegs then
    { wandbBound := true, requireCalled := false, caught := some "AssertionError" }
  else if versionSegLt sdk.version minVersionSegs then
    { wandbBound := true, requireCalled := true, caught := none }
  else
    { wandbBound := true, requireCalled := false, caught := none }

/-- What a completed `__init__` leaves behind. -/
structure InitResult where
  /-- Whether `logger.warning` ran (the except branch). -/
  warned : Bool
  /-- Assignment `self.step = kwargs.pop("step", 0)`. -/
  step : PyVal
  /-- Assignment `self.step_key = kwargs.pop("step_key", "train/step")`. -/
  step_key : PyVal
  /-- Field `self.wandb_args`: the kwargs after the two pops. -/
  wandb_args : Dict PyVal
  /-- The kwargs passed to `wandb.init(**self.wandb_args)`, or `none` when an
  already-active run was attached instead (line 50-53). -/
  wandbInitArgs : Option (Dict PyVal)

/-- Model of `WandbLogger.__init__`: run the try block, pop `step` and `step_key`
from the kwargs, then evaluate `wandb.run` at line 50.  When the import at
line 31 failed, `wandb` is an unbound local there and the constructor itself
raises; the earlier exception was already swallowed at line 36. -/
def wandbLoggerInit (sdk : Sdk) (kwargs : Dict PyVal) : Except String InitResult :=
  let t := initTryBlock sdk
  let step := (dictGet kwargs "step").getD (.pyInt 0)
  let stepKey := (dictGet kwargs "step_key").getD (.pyStr "train/step")
  let args := dictErase (dictErase kwargs "step") "step_key"
  if t.wandbBound then
    .ok { warned := t.caught.isSome
          step := step
          step_key := stepKey
          wandb_args := args
          wandbInitArgs := if sdk.hasActiveRun then none else some args }
  else
    .error "UnboundLocalError: cannot access local variable wandb"

/-! Section: Results handling (`post_init`, `_sanitize_results_dict`,
`log_eval_result`, `_log_results_as_artifact`) -/

/-- The mutable attributes of a `WandbLogger` that the results-handling
methods read and write.  `step_key` is kept as the string it is in every use
this module makes of it.  Deep copies are value copies here: the model has
value semantics, so `copy.deepcopy` is the identity and mutation of one
value can never affect another. -/
structure LoggerState where
  /-- Field `self.step`. -/
  step : PyVal
  /-- Field `self.step_key`. -/
  step_key : String
  /-- Field `self.wandb_args`. -/
  wandb_args : Dict PyVal
  /-- Field `self.results`, the deep-copied bundle (empty before `post_init`). -/
  results : Dict PyVal
  /-- Field `self.task_names`. -/
  task_names : List String
  /-- Field `self.wandb_results` (set by `log_eval_result`). -/
  wandb_results : Dict PyVal

/-- Model of `post_init` (lines 60-62): store a deep copy of the bundle and record
`list(results.get("results", {}).keys())`; `.keys()` on a non-dict value
raises `AttributeError`. -/
def post_init (st : LoggerState) (results : Dict PyVal) : Except String LoggerState :=
  match (dictGet results "results").getD (.pyDict []) with
  | .pyDict entries =>
    .ok { st with results := results, task_names := entries.map Prod.fst }
  | _ => .error "AttributeError: keys"

/-- The composite key `f"{task_name}/{metric_name}"`. -/
def compositeKey (t m : String) : String := t ++ "/" ++ m

/-- Lines 88-89 of `_sanitize_results_dict` for one metric:
`_results[f"{task_name}/{metric_name}"]` has already been assigned, and
`_results[task_name].pop(metric_name)` looks the task key up in the current
`_results`, requires a dict there, and pops the metric from it. -/
def popTaskMetric (r : Dict PyVal) (t m : String) : Except String (Dict PyVal) :=
  match dictGet r t with
  | some (.pyDict tm) =>
    match dictPop tm m with
    | some tm2 => .ok (dictSet r t (.pyDict tm2))
    | none => .error "KeyError: metric"
  | some _ => .error "AttributeError: pop"
  | none => .error "KeyError: task"

/-- The inner loop of `_sanitize_results_dict` (lines 87-89) over the metric items of one task from the `tmp_results` snapshot. -/
def flattenTaskMetrics (t : String) (ms : Dict PyVal) (r : Dict PyVal) :
    Except String (Dict PyVal) :=
  match ms with
  | [] => .ok r
  | (m, v) :: rest => do
    let r2 ← popTaskMetric (dictSet r (compositeKey t m) v) t m
    flattenTaskMetrics t rest r2

/-- The outer loop of `_sanitize_results_dict` (lines 86-89) over
`tmp_results.items()`; `.items()` on a non-dict task value raises. -/
def flattenTasks (todo : List (String × PyVal)) (r : Dict PyVal) :
    Except String (Dict PyVal) :=
  match todo with
  | [] => .ok r
  | (t, tv) :: rest =>
    match tv with
    | .pyDict ms => do
      let r2 ← flattenTaskMetrics t ms r
      flattenTasks rest r2
    | _ => .error "AttributeError: items"

/-- Lines 90-91: `for task in self.task_names: _results.pop(task)`;
`pop` without a default raises `KeyError` on a missing key. -/
def popTaskKeys (tasks : List String) (r : Dict PyVal) : Except String (Dict PyVal) :=
  match tasks with
  | [] => .ok r
  | t :: rest =>
    match dictPop r t with
    | some r2 => popTaskKeys rest r2
    | none => .error "KeyError: task name"

/-- Model of `_sanitize_results_dict` (lines 81-93): deep-copy
`self.results.get("results", dict())`, expand every `(task, metric)` pair
into a `"task/metric"` key, pop each metric from the own entry of its task as it
is expanded, then pop every recorded task name. -/
def sanitize_results_dict (stored : Dict PyVal) (task_names : List String) :
    Except String (Dict PyVal) :=
  match (dictGet stored "results").getD (.pyDict []) with
  | .pyDict entries => do
    let r ← flattenTasks entries entries
    popTaskKeys task_names r
  | _ => .error "AttributeError: items"

/-- Lines 69-74 as a value: the sanitized mapping with the step value
injected under the step key (`self.wandb_results[self.step_key] = self.step`). -/
def compute_wandb_results (st : LoggerState) : Except String (Dict PyVal) := do
  let r ← sanitize_results_dict st.results st.task_names
  .ok (dictSet r st.step_key st.step)

/-- Argument of line 67 to `self.run.config.update`: the single-entry mapping
`{"bigcode_eval": self.results.get("config", {})}`. -/
def configUpdatePayload (st : LoggerState) : Dict PyVal :=
  [("bigcode_eval", (dictGet st.results "config").getD (.pyDict []))]

/-- Semantics of `run.config.update(d, allow_val_change=True)` in the SDK: merge the
payload into the persisted run configuration, overwriting on key conflict.
Modelled from the spec: the SDK itself is outside this repository; the spec
describes the call as a merge that overwrites existing entries. -/
def applyConfigUpdate (runConfig : Dict PyVal) (payload : Dict PyVal) : Dict PyVal :=
  payload.foldl (fun rc p => dictSet rc p.1 p.2) runConfig

/-- Whether the name `wandb` is bound at module scope.  The top-level
imports of the module (lines 1-6) are `copy`, `logging`, `typing`, `numpy`,
`packaging.version`, and `json`; `import wandb` only ever runs inside
`__init__`, where it binds a function-local name.  The global lookup of
`wandb` at line 100 (`wandb.Artifact`) therefore fails. -/
def moduleBindsWandb : Bool := false

/-- Everything one call of `log_eval_result` (lines 64-79) does, in order:
the config-update payload it sends, the metric keys it declares, the mapping
passed to `run.log`, the JSON text dumped for the artifact, the first
exception raised (if any), and the state the logger is left in. -/
structure LogEvalTrace where
  /-- Argument of `self.run.config.update` (line 67). -/
  configUpdated : Dict PyVal
  /-- Keys passed to `self.run.define_metric` (lines 72-73). -/
  definedMetrics : List String
  /-- Mapping passed to `self.run.log` (line 76), if reached. -/
  logged : Option (Dict PyVal)
  /-- The artifact JSON (line 97-99), if the dump was reached. -/
  artifactDumped : Option JVal
  /-- Whether `run.log_artifact` (line 103) completed. -/
  artifactLogged : Bool
  /-- The first uncaught exception, if any. -/
  raised : Option String
  /-- The logger state afterwards. -/
  finalState : LoggerState

/-- Model of `log_eval_result` followed by `_log_results_as_artifact`: update the run
config, sanitize the stored results (a raise here propagates), declare each
flattened key, inject the step value, log the mapping, dump the bundle to
JSON, then evaluate the global name `wandb` at line 100 — which is unbound
at module scope, so a `NameError` is raised after the metrics were already
logged. -/
def log_eval_result (st : LoggerState) : LogEvalTrace :=
  let payload := configUpdatePayload st
  match sanitize_results_dict st.results st.task_names with
  | .error e =>
    { configUpdated := payload, definedMetrics := [], logged := none,
      artifactDumped := none, artifactLogged := false, raised := some e,
      finalState := st }
  | .ok r =>
    let wr := dictSet r st.step_key st.step
    let st2 := { st with wandb_results := wr }
    let dumped := jsonDumps (.pyDict st.results)
    if moduleBindsWandb then
      { configUpdated := payload, definedMetrics := dictKeys r, logged := some wr,
        artifactDumped := some dumped, artifactLogged := true, raised := none,
        finalState := st2 }
    else
      { configUpdated := payload, definedMetrics := dictKeys r, logged := some wr,
        artifactDumped := some dumped, artifactLogged := false,
        raised := some "NameError: name wandb is not defined", finalState := st2 }


/-! Section: Spec-side view of flattening -/

/-- The `(task, metric, value)` triples of one task entry, per the spec sentence
"for each task name and each metric name/value pair under that task". -/
def pairsOfTask : String × PyVal → List (String × String × PyVal)
  | (t, .pyDict ms) => ms.map (fun p => (t, p.1, p.2))
  | _ => []

/-- All `(task, metric, value)` triples of a results mapping, in order. -/
def taskMetricPairs : List (String × PyVal) → List (String × String × PyVal)
  | [] => []
  | e :: rest => pairsOfTask e ++ taskMetricPairs rest

/-- The flattened mapping the spec describes: one entry
`("task/metric", value)` per `(task, metric)` pair, in order.  Written from
the words of the spec, to be compared with what `sanitize_results_dict` returns. -/
def specFlatten (todo : List (String × PyVal)) : Dict PyVal :=
  (taskMetricPairs todo).map (fun q => (compositeKey q.1 q.2.1, q.2.2))

/-- Intermediate state of `_results` after the expansion loops: the value of every listed
task overwritten by an empty dict. -/
def emptyAll (todo : List (String × PyVal)) (r : Dict PyVal) : Dict PyVal :=
  match todo with
  | [] => r
  | e :: rest => emptyAll rest (dictSet r e.1 (.pyDict []))

/-! Section: Concrete inputs used by witnesses and counterexamples -/

/-- A logger state as `__init__` leaves it with default kwargs. -/
def freshLogger : LoggerState :=
  { step := .pyInt 0, step_key := "train/step", wandb_args := [],
    results := [], task_names := [], wandb_results := [] }

/-- A results mapping whose task names collide with a composite key:
task `"a"` has metric `"b"`, and `"a/b"` is itself a task. -/
def clashEntries : List (String × PyVal) :=
  [("a", .pyDict [("b", .pyInt 1)]), ("a/b", .pyDict [])]

/-- The bundle carrying `clashEntries`. -/
def clashBundle : Dict PyVal :=
  [("results", .pyDict clashEntries), ("config", .pyDict [])]

/-- The example mapping given in the spec:
`{"taskA": {"acc": 0.5-like value, "acc_stderr": ...}}` (values here are
integers; the flattening never inspects them). -/
def exampleEntries : List (String × PyVal) :=
  [("taskA", .pyDict [("acc", .pyInt 5), ("acc_stderr", .pyInt 1)])]

/-- The bundle carrying `exampleEntries`. -/
def exampleBundle : Dict PyVal :=
  [("results", .pyDict exampleEntries), ("config", .pyDict [("seed", .pyInt 0)])]


/-- The logger state right after `post_init` on `exampleBundle`. -/
def exampleState : LoggerState :=
  { step := .pyInt 0, step_key := "train/step", wandb_args := [],
    results := exampleBundle, task_names := ["taskA"], wandb_results := [] }

/-- A bundle with neither `config` nor `results`. -/
def bundleMissingBoth : Dict PyVal := []

/-- A bundle with `config` but no `results` key. -/
def bundleMissingResults : Dict PyVal := [("config", .pyDict [])]

/-- A bundle whose `results` mapping is empty. -/
def bundleEmptyResults : Dict PyVal := [("results", .pyDict [])]

/-- What the spec asserts of a malformed bundle, combined with what actually
happens: attaching succeeds, the flattened mapping is just the injected step
key, the metrics are logged — and the call then raises `NameError` at
`wandb.Artifact` (line 100) because `wandb` is not bound at module scope. -/
def toleratedButRaises (b : Dict PyVal) : Prop :=
  ∃ st1, post_init freshLogger b = .ok st1 ∧
    compute_wandb_results st1 = .ok [("train/step", .pyInt 0)] ∧
    (log_eval_result st1).logged = some [("train/step", .pyInt 0)] ∧
    (log_eval_result st1).raised = some "NameError: name wandb is not defined"

/-- A pre-existing run configuration sharing the key `"seed"` with the
config mapping of the bundle. -/
def c9RunConfig : Dict PyVal := [("seed", .pyInt 1)]

/-- A logger state whose stored bundle has config `{"seed": 0}`. -/
def c9State : LoggerState :=
  { step := .pyInt 0, step_key := "train/step", wandb_args := [],
    results := [("config", .pyDict [("seed", .pyInt 0)])], task_names := [],
    wandb_results := [] }

/-- Constructor kwargs used by the C5 witness. -/
def c5kwargs : Dict PyVal := [("project", .pyStr "x"), ("step", .pyInt 7)]

/-- The `InitResult` the constructor produces from `c5kwargs` with a healthy
SDK and no active run. -/
def c5res : InitResult :=
  { warned := false, step := .pyInt 7, step_key := .pyStr "train/step",
    wandb_args := [("project", .pyStr "x")],
    wandbInitArgs := some [("project", .pyStr "x")] }

/-! Section: Basic dictionary lemmas -/

theorem dictGet_dictSet_self {α : Type} (d : Dict α) (k : String) (v : α) :
    dictGet (dictSet d k v) k = some v := by
  induction d with
  | nil => simp [dictGet, dictSet]
  | cons p rest ih =>
    obtain ⟨k2, v2⟩ := p
    by_cases h : k2 = k <;> simp [dictGet, dictSet, h, ih]

theorem dictGet_dictSet_ne {α : Type} {d : Dict α} {k k2 : String} (v : α)
    (h : k2 ≠ k) : dictGet (dictSet d k v) k2 = dictGet d k2 := by
  induction d with
  | nil => simp [dictGet, dictSet, Ne.symm h]
  | cons p rest ih =>
    obtain ⟨k3, v3⟩ := p
    by_cases h3 : k3 = k <;> by_cases h4 : k3 = k2 <;>
      simp_all [dictGet, dictSet]

theorem dictGet_append_left {α : Type} {a : Dict α} {k : String} {v : α}
    (b : Dict α) (h : dictGet a k = some v) : dictGet (a ++ b) k = some v := by
  induction a with
  | nil => simp [dictGet] at h
  | cons p rest ih =>
    obtain ⟨k2, v2⟩ := p
    by_cases h2 : k2 = k <;> simp_all [dictGet]

theorem dictGet_append_right {α : Type} {a : Dict α} {k : String}
    (b : Dict α) (h : dictGet a k = none) : dictGet (a ++ b) k = dictGet b k := by
  induction a with
  | nil => simp [dictGet]
  | cons p rest ih =>
    obtain ⟨k2, v2⟩ := p
    by_cases h2 : k2 = k <;> simp_all [dictGet]

theorem dictSet_append_left {α : Type} {a : Dict α} {k : String}
    (b : Dict α) (v : α) (h : (dictGet a k).isSome) :
    dictSet (a ++ b) k v = dictSet a k v ++ b := by
  induction a with
  | nil => simp [dictGet] at h
  | cons p rest ih =>
    obtain ⟨k2, v2⟩ := p
    by_cases h2 : k2 = k <;> simp_all [dictGet, dictSet]

theorem dictSet_of_fresh {α : Type} {d : Dict α} {k : String} (v : α)
    (h : dictGet d k = none) : dictSet d k v = d ++ [(k, v)] := by
  induction d with
  | nil => simp [dictSet]
  | cons p rest ih =>
    obtain ⟨k2, v2⟩ := p
    by_cases h2 : k2 = k <;> simp_all [dictGet, dictSet]

theorem dictSet_dictSet_self {α : Type} (d : Dict α) (k : String) (v w : α) :
    dictSet (dictSet d k v) k w = dictSet d k w := by
  induction d with
  | nil => simp [dictSet]
  | cons p rest ih =>
    obtain ⟨k2, v2⟩ := p
    by_cases h2 : k2 = k <;> simp_all [dictSet]

theorem dictSet_eq_self {α : Type} {d : Dict α} {k : String} {v : α}
    (h : dictGet d k = some v) : dictSet d k v = d := by
  induction d with
  | nil => simp [dictGet] at h
  | cons p rest ih =>
    obtain ⟨k2, v2⟩ := p
    by_cases h2 : k2 = k <;> simp_all [dictGet, dictSet]

theorem isSome_dictGet_dictSet {α : Type} {d : Dict α} {k : String}
    (k2 : String) (v : α) (h : (dictGet d k).isSome) :
    (dictGet (dictSet d k2 v) k).isSome := by
  by_cases h2 : k = k2
  · subst h2; simp [dictGet_dictSet_self]
  · rw [dictGet_dictSet_ne v h2]; exact h

theorem dictGet_eq_none_of_not_mem {α : Type} {d : Dict α} {k : String}
    (h : k ∉ dictKeys d) : dictGet d k = none := by
  induction d with
  | nil => simp [dictGet]
  | cons p rest ih =>
    obtain ⟨k2, v2⟩ := p
    simp only [dictKeys, List.map_cons, List.mem_cons] at h
    push_neg at h
    simp [dictGet, Ne.symm h.1, ih (by simpa [dictKeys] using h.2)]

theorem mem_dictKeys_of_isSome {α : Type} {d : Dict α} {k : String}
    (h : (dictGet d k).isSome) : k ∈ dictKeys d := by
  by_contra hc
  rw [dictGet_eq_none_of_not_mem hc] at h
  simp at h

theorem dictGet_self_of_nodup {α : Type} {d : Dict α}
    (h : (d.map Prod.fst).Nodup) : ∀ p ∈ d, dictGet d p.1 = some p.2 := by
  induction d with
  | nil => simp
  | cons q rest ih =>
    obtain ⟨k2, v2⟩ := q
    simp only [List.map_cons, List.nodup_cons] at h
    intro p hp
    rcases List.mem_cons.mp hp with h2 | h2
    · subst h2; simp [dictGet]
    · have hne : k2 ≠ p.1 := by
        intro he
        exact h.1 (he ▸ List.mem_map_of_mem Prod.fst h2)
      simp [dictGet, hne, ih h.2 p h2]

theorem dictGet_of_mem_nodup {α : Type} {d : Dict α} {k : String} {v : α}
    (h : (d.map Prod.fst).Nodup) (hm : (k, v) ∈ d) : dictGet d k = some v :=
  dictGet_self_of_nodup h (k, v) hm

theorem dictKeys_dictSet_of_isSome {α : Type} {d : Dict α} {k : String}
    (v : α) (h : (dictGet d k).isSome) : dictKeys (dictSet d k v) = dictKeys d := by
  induction d with
  | nil => simp [dictGet] at h
  | cons p rest ih =>
    obtain ⟨k2, v2⟩ := p
    by_cases h2 : k2 = k <;> simp_all [dictGet, dictSet, dictKeys]


/-! Section: Flattening correctness -/

theorem string_append_cancel_left {s a b : String} (h : s ++ a = s ++ b) : a = b := by
  have hd := congrArg String.data h
  simp only [String.data_append] at hd
  exact String.ext (List.append_cancel_left hd)

theorem compositeKey_metric_inj {t m m2 : String}
    (h : compositeKey t m = compositeKey t m2) : m = m2 :=
  string_append_cancel_left (s := t ++ "/") h

theorem taskMetricPairs_cons (e : String × PyVal) (rest : List (String × PyVal)) :
    taskMetricPairs (e :: rest) = pairsOfTask e ++ taskMetricPairs rest := rfl

theorem pairsOfTask_pyDict (t : String) (ms : List (String × PyVal)) :
    pairsOfTask (t, .pyDict ms) = ms.map (fun p => (t, p.1, p.2)) := rfl

theorem flattenTaskMetrics_spec (t : String) :
    ∀ (ms : Dict PyVal) (r : Dict PyVal),
    dictGet r t = some (.pyDict ms) →
    (∀ p ∈ ms, dictGet r (compositeKey t p.1) = none) →
    (ms.map Prod.fst).Nodup →
    flattenTaskMetrics t ms r =
      .ok (dictSet r t (.pyDict []) ++ ms.map (fun p => (compositeKey t p.1, p.2))) := by
  intro ms
  induction ms with
  | nil =>
    intro r hget _ _
    simp [flattenTaskMetrics, dictSet_eq_self hget]
  | cons q rest ih =>
    obtain ⟨m, v⟩ := q
    intro r hget hfresh hnd
    have hck : dictGet r (compositeKey t m) = none := hfresh (m, v) (by simp)
    have hset : dictSet r (compositeKey t m) v = r ++ [(compositeKey t m, v)] :=
      dictSet_of_fresh v hck
    have hget1 : dictGet (r ++ [(compositeKey t m, v)]) t = some (.pyDict ((m, v) :: rest)) :=
      dictGet_append_left _ hget
    have hpop : popTaskMetric (dictSet r (compositeKey t m) v) t m =
        .ok (dictSet r t (.pyDict rest) ++ [(compositeKey t m, v)]) := by
      rw [hset]
      unfold popTaskMetric
      rw [hget1]
      simp [dictPop, dictSet_append_left _ _ (by rw [hget]; rfl)]
    have hnd2 : (rest.map Prod.fst).Nodup := (List.nodup_cons.mp hnd).2
    have hmnotin : m ∉ rest.map Prod.fst := (List.nodup_cons.mp hnd).1
    have hget2 : dictGet (dictSet r t (.pyDict rest) ++ [(compositeKey t m, v)]) t =
        some (.pyDict rest) :=
      dictGet_append_left _ (dictGet_dictSet_self r t _)
    have hfresh2 : ∀ p ∈ rest,
        dictGet (dictSet r t (.pyDict rest) ++ [(compositeKey t m, v)])
          (compositeKey t p.1) = none := by
      intro p hp
      have hckp : dictGet r (compositeKey t p.1) = none := hfresh p (by simp [hp])
      have hne_t : compositeKey t p.1 ≠ t := by
        intro he
        rw [he, hget] at hckp
        cases hckp
      have hne_ck : compositeKey t m ≠ compositeKey t p.1 := by
        intro he
        exact hmnotin (compositeKey_metric_inj he ▸ List.mem_map_of_mem Prod.fst hp)
      rw [dictGet_append_right _ (by rw [dictGet_dictSet_ne _ hne_t]; exact hckp)]
      simp [dictGet, hne_ck]
    have hrec := ih (dictSet r t (.pyDict rest) ++ [(compositeKey t m, v)])
      hget2 hfresh2 hnd2
    show (do
        let r2 ← popTaskMetric (dictSet r (compositeKey t m) v) t m
        flattenTaskMetrics t rest r2) = _
    rw [hpop]
    show flattenTaskMetrics t rest (dictSet r t (.pyDict rest) ++ [(compositeKey t m, v)]) = _
    rw [hrec]
    have hsets : dictSet (dictSet r t (.pyDict rest) ++ [(compositeKey t m, v)]) t
        (.pyDict []) = dictSet r t (.pyDict []) ++ [(compositeKey t m, v)] := by
      rw [dictSet_append_left _ _ (by rw [dictGet_dictSet_self]; rfl),
        dictSet_dictSet_self]
    rw [hsets]
    simp

theorem emptyAll_append (todo : List (String × PyVal)) :
    ∀ (a b : Dict PyVal), (∀ p ∈ todo, (dictGet a p.1).isSome) →
    emptyAll todo (a ++ b) = emptyAll todo a ++ b := by
  induction todo with
  | nil => intro a b _; rfl
  | cons e rest ih =>
    intro a b hsome
    have hse : (dictGet a e.1).isSome := hsome e (by simp)
    unfold emptyAll
    rw [dictSet_append_left _ _ hse]
    exact ih _ b (fun p hp => isSome_dictGet_dictSet _ _ (hsome p (by simp [hp])))

theorem dictKeys_emptyAll (todo : List (String × PyVal)) :
    ∀ (r : Dict PyVal), (∀ p ∈ todo, (dictGet r p.1).isSome) →
    dictKeys (emptyAll todo r) = dictKeys r := by
  induction todo with
  | nil => intro r _; rfl
  | cons e rest ih =>
    intro r hsome
    unfold emptyAll
    rw [ih _ (fun p hp => isSome_dictGet_dictSet _ _ (hsome p (by simp [hp]))),
      dictKeys_dictSet_of_isSome _ (hsome e (by simp))]

theorem popTaskKeys_prepart : ∀ (a b : Dict PyVal),
    popTaskKeys (dictKeys a) (a ++ b) = .ok b := by
  intro a
  induction a with
  | nil => intro b; rfl
  | cons e rest ih =>
    intro b
    obtain ⟨k, v⟩ := e
    show popTaskKeys (k :: dictKeys rest) ((k, v) :: (rest ++ b)) = .ok b
    unfold popTaskKeys
    simp [dictPop, ih b]

theorem flattenTasks_spec :
    ∀ (todo : List (String × PyVal)) (r : Dict PyVal),
    (∀ p ∈ todo, ∃ ms, p.2 = PyVal.pyDict ms ∧ (ms.map Prod.fst).Nodup) →
    (∀ p ∈ todo, dictGet r p.1 = some p.2) →
    (todo.map Prod.fst).Nodup →
    (∀ q ∈ taskMetricPairs todo, dictGet r (compositeKey q.1 q.2.1) = none) →
    ((taskMetricPairs todo).map (fun q => compositeKey q.1 q.2.1)).Nodup →
    flattenTasks todo r = .ok (emptyAll todo r ++ specFlatten todo) := by
  intro todo
  induction todo with
  | nil =>
    intro r _ _ _ _ _
    simp [flattenTasks, emptyAll, specFlatten, taskMetricPairs]
  | cons e rest ih =>
    intro r h1 h2 h3 h4 h5
    obtain ⟨t, tv⟩ := e
    obtain ⟨ms, htv, hndms⟩ := h1 (t, tv) (by simp)
    simp only at htv
    subst htv
    have hget : dictGet r t = some (.pyDict ms) := h2 (t, .pyDict ms) (by simp)
    have hfresh : ∀ p ∈ ms, dictGet r (compositeKey t p.1) = none := by
      intro p hp
      exact h4 (t, p.1, p.2) (by
        rw [taskMetricPairs_cons, pairsOfTask_pyDict]
        exact List.mem_append_left _ (List.mem_map_of_mem _ hp))
    have hflat := flattenTaskMetrics_spec t ms r hget hfresh hndms
    have h3c : t ∉ rest.map Prod.fst ∧ (rest.map Prod.fst).Nodup := by
      rw [List.map_cons, List.nodup_cons] at h3
      exact h3
    have htnotin : t ∉ rest.map Prod.fst := h3c.1
    have hndrest : (rest.map Prod.fst).Nodup := h3c.2
    have hcksplit :
        ((taskMetricPairs ((t, PyVal.pyDict ms) :: rest)).map
          (fun q => compositeKey q.1 q.2.1)) =
        ms.map (fun p => compositeKey t p.1) ++
          (taskMetricPairs rest).map (fun q => compositeKey q.1 q.2.1) := by
      rw [taskMetricPairs_cons, pairsOfTask_pyDict, List.map_append, List.map_map]
      rfl
    have hnd5 := hcksplit ▸ h5
    have hdisj := (List.nodup_append.mp hnd5).2.2
    have hnd5rest := (List.nodup_append.mp hnd5).2.1
    have hsome2 : ∀ p ∈ rest, dictGet (dictSet r t (.pyDict [])) p.1 = some p.2 := by
      intro p hp
      have hnep : p.1 ≠ t := by
        intro he
        exact htnotin (he ▸ List.mem_map_of_mem Prod.fst hp)
      rw [dictGet_dictSet_ne _ hnep]
      exact h2 p (by simp [hp])
    have h2r : ∀ p ∈ rest,
        dictGet (dictSet r t (.pyDict []) ++ ms.map (fun p => (compositeKey t p.1, p.2)))
          p.1 = some p.2 := by
      intro p hp
      exact dictGet_append_left _ (hsome2 p hp)
    have h4r : ∀ q ∈ taskMetricPairs rest,
        dictGet (dictSet r t (.pyDict []) ++ ms.map (fun p => (compositeKey t p.1, p.2)))
          (compositeKey q.1 q.2.1) = none := by
      intro q hq
      have hq0 : dictGet r (compositeKey q.1 q.2.1) = none :=
        h4 q (by rw [taskMetricPairs_cons]; exact List.mem_append_right _ hq)
      have hneq : compositeKey q.1 q.2.1 ≠ t := by
        intro he
        rw [he, hget] at hq0
        cases hq0
      rw [dictGet_append_right _ (by rw [dictGet_dictSet_ne _ hneq]; exact hq0)]
      apply dictGet_eq_none_of_not_mem
      have hmemr : compositeKey q.1 q.2.1 ∈
          (taskMetricPairs rest).map (fun q => compositeKey q.1 q.2.1) :=
        List.mem_map_of_mem _ hq
      have hnotl : compositeKey q.1 q.2.1 ∉ ms.map (fun p => compositeKey t p.1) := by
        intro hmem
        exact (List.disjoint_right.mp hdisj hmemr) hmem
      intro hmem
      apply hnotl
      simpa [dictKeys, List.map_map] using hmem
    have hrec := ih (dictSet r t (.pyDict []) ++ ms.map (fun p => (compositeKey t p.1, p.2)))
      (fun p hp => h1 p (by simp [hp])) h2r hndrest h4r hnd5rest
    show (do
        let r2 ← flattenTaskMetrics t ms r
        flattenTasks rest r2) = _
    rw [hflat]
    show flattenTasks rest
      (dictSet r t (.pyDict []) ++ ms.map (fun p => (compositeKey t p.1, p.2))) = _
    rw [hrec]
    have hemp : emptyAll rest
        (dictSet r t (.pyDict []) ++ ms.map (fun p => (compositeKey t p.1, p.2))) =
        emptyAll rest (dictSet r t (.pyDict [])) ++
          ms.map (fun p => (compositeKey t p.1, p.2)) :=
      emptyAll_append rest _ _ (fun p hp => by rw [hsome2 p hp]; rfl)
    rw [hemp]
    have hspec : specFlatten ((t, PyVal.pyDict ms) :: rest) =
        ms.map (fun p => (compositeKey t p.1, p.2)) ++ specFlatten rest := by
      unfold specFlatten
      rw [taskMetricPairs_cons, pairsOfTask_pyDict, List.map_append, List.map_map]
      rfl
    have hec : emptyAll ((t, PyVal.pyDict ms) :: rest) r =
        emptyAll rest (dictSet r t (.pyDict [])) := rfl
    rw [hspec, hec, List.append_assoc]

theorem sanitize_eq_specFlatten {stored : Dict PyVal} {entries : List (String × PyVal)}
    (hres : dictGet stored "results" = some (.pyDict entries))
    (h1 : ∀ p ∈ entries, ∃ ms, p.2 = PyVal.pyDict ms ∧ (ms.map Prod.fst).Nodup)
    (h3 : (entries.map Prod.fst).Nodup)
    (h5 : ((taskMetricPairs entries).map (fun q => compositeKey q.1 q.2.1)).Nodup)
    (h6 : ∀ q ∈ taskMetricPairs entries, compositeKey q.1 q.2.1 ∉ entries.map Prod.fst) :
    sanitize_results_dict stored (entries.map Prod.fst) = .ok (specFlatten entries) := by
  have h2 := dictGet_self_of_nodup h3
  have h4 : ∀ q ∈ taskMetricPairs entries, dictGet entries (compositeKey q.1 q.2.1) = none :=
    fun q hq => dictGet_eq_none_of_not_mem (h6 q hq)
  have hflat := flattenTasks_spec entries entries h1 h2 h3 h4 h5
  have hsome : ∀ p ∈ entries, (dictGet entries p.1).isSome := by
    intro p hp
    rw [h2 p hp]; rfl
  unfold sanitize_results_dict
  rw [hres]
  show (do
      let r ← flattenTasks entries entries
      popTaskKeys (entries.map Prod.fst) r) = _
  rw [hflat]
  show popTaskKeys (entries.map Prod.fst) (emptyAll entries entries ++ specFlatten entries) = _
  have hkeys : entries.map Prod.fst = dictKeys (emptyAll entries entries) := by
    rw [dictKeys_emptyAll entries entries hsome]; rfl
  rw [hkeys, popTaskKeys_prepart]


/-! Section: Lemmas about `dictErase`, round-tripping, and `log_eval_result` -/

theorem dictGet_dictErase_self {α : Type} {d : Dict α} {k : String}
    (h : (d.map Prod.fst).Nodup) : dictGet (dictErase d k) k = none := by
  induction d with
  | nil => rfl
  | cons p rest ih =>
    obtain ⟨k2, v2⟩ := p
    rw [List.map_cons, List.nodup_cons] at h
    by_cases h2 : k2 = k
    · subst h2
      simp only [dictErase, if_pos rfl]
      exact dictGet_eq_none_of_not_mem h.1
    · simp [dictErase, dictGet, h2, ih h.2]

theorem dictGet_dictErase_ne {α : Type} {d : Dict α} {k k2 : String}
    (h : k2 ≠ k) : dictGet (dictErase d k) k2 = dictGet d k2 := by
  induction d with
  | nil => rfl
  | cons p rest ih =>
    obtain ⟨k3, v3⟩ := p
    by_cases h3 : k3 = k <;> by_cases h4 : k3 = k2 <;>
      simp_all [dictErase, dictGet]

theorem dictErase_subset {α : Type} (d : Dict α) (k : String) : dictErase d k ⊆ d := by
  induction d with
  | nil => simp [dictErase]
  | cons e es ih =>
    obtain ⟨a, b⟩ := e
    by_cases he : a = k
    · simp only [dictErase, if_pos he]
      exact fun x hx => List.mem_cons_of_mem _ hx
    · simp only [dictErase, if_neg he]
      exact List.cons_subset_cons _ ih

theorem nodup_dictErase {α : Type} {d : Dict α} (k : String)
    (h : (d.map Prod.fst).Nodup) : ((dictErase d k).map Prod.fst).Nodup := by
  induction d with
  | nil => exact h
  | cons p rest ih =>
    obtain ⟨k2, v2⟩ := p
    rw [List.map_cons, List.nodup_cons] at h
    by_cases h2 : k2 = k
    · simp only [dictErase, if_pos h2]
      exact h.2
    · simp only [dictErase, if_neg h2, List.map_cons, List.nodup_cons]
      refine ⟨fun hmem => ?_, ih h.2⟩
      obtain ⟨q, hq, hqe⟩ := List.mem_map.mp hmem
      have hqr : q.1 ∈ rest.map Prod.fst :=
        List.mem_map_of_mem Prod.fst (dictErase_subset rest k hq)
      rw [hqe] at hqr
      exact h.1 hqr

mutual

theorem jsonDumps_roundTrip (v : PyVal) :
    jvalToPy (jsonDumps v) = specRoundTrip v := by
  cases v with
  | pyList xs =>
    show PyVal.pyList (jvalToPyList (jsonDumpsList xs)) = PyVal.pyList (specRoundTripList xs)
    rw [jsonDumps_roundTripList xs]
  | pyDict es =>
    show PyVal.pyDict (jvalToPyEntries (jsonDumpsEntries es)) =
      PyVal.pyDict (specRoundTripEntries es)
    rw [jsonDumps_roundTripEntries es]
  | pySet xs =>
    show PyVal.pyList (jvalToPyList (jsonDumpsList xs)) = PyVal.pyList (specRoundTripList xs)
    rw [jsonDumps_roundTripList xs]
  | pyNone => rfl
  | pyBool b => rfl
  | pyInt n => rfl
  | pyStr s2 => rfl
  | npInt64 n => rfl
  | npInt32 n => rfl
  | pyOther s2 => rfl

theorem jsonDumps_roundTripList (xs : List PyVal) :
    jvalToPyList (jsonDumpsList xs) = specRoundTripList xs := by
  cases xs with
  | nil => rfl
  | cons x xs2 =>
    show jvalToPy (jsonDumps x) :: jvalToPyList (jsonDumpsList xs2) = _
    rw [jsonDumps_roundTrip x, jsonDumps_roundTripList xs2]
    rfl

theorem jsonDumps_roundTripEntries (es : List (String × PyVal)) :
    jvalToPyEntries (jsonDumpsEntries es) = specRoundTripEntries es := by
  cases es with
  | nil => rfl
  | cons e es2 =>
    obtain ⟨k, v⟩ := e
    show (k, jvalToPy (jsonDumps v)) :: jvalToPyEntries (jsonDumpsEntries es2) = _
    rw [jsonDumps_roundTrip v, jsonDumps_roundTripEntries es2]
    rfl

end

theorem log_eval_result_configUpdated (st : LoggerState) :
    (log_eval_result st).configUpdated = configUpdatePayload st := by
  unfold log_eval_result
  rcases h : sanitize_results_dict st.results st.task_names with e | r <;>
    simp [h, moduleBindsWandb]

theorem log_eval_result_results_unchanged (st : LoggerState) :
    (log_eval_result st).finalState.results = st.results := by
  unfold log_eval_result
  rcases h : sanitize_results_dict st.results st.task_names with e | r <;>
    simp [h, moduleBindsWandb]

theorem log_eval_result_task_names_unchanged (st : LoggerState) :
    (log_eval_result st).finalState.task_names = st.task_names := by
  unfold log_eval_result
  rcases h : sanitize_results_dict st.results st.task_names with e | r <;>
    simp [h, moduleBindsWandb]


/-! Section: Claim theorems -/

/-- Claim C1, as stated, is false: in the bundle `clashBundle` the task
names are `"a"` and `"a/b"`, the `(task, metric)` pairs are exactly
`[("a", "b", 1)]`, yet the flattened mapping is empty — the composite key
`"a/b"` coincides with a task name, is overwritten during expansion and then
popped with the task keys, so the pair `("a", "b")` has no key at all. -/
theorem C1_flatten_bijection_cex :
    taskMetricPairs clashEntries = [("a", "b", PyVal.pyInt 1)] ∧
    (∃ st1, post_init freshLogger clashBundle = .ok st1 ∧
      st1.task_names = ["a", "a/b"] ∧
      sanitize_results_dict st1.results st1.task_names = .ok []) :=
  ⟨rfl, _, rfl, rfl, rfl⟩

/-- Claim C1, amended: provided every task value is a dict with distinct
metric names, task names are distinct, the composite `"task/metric"` keys
are pairwise distinct, and no composite key coincides with a task name
(all automatic when task names contain no `"/"`), the flattening performed
after `post_init` is a bijection between the `(task, metric)` pairs of the bundle
and the `"task/metric"` keys of the flattened mapping — each pair yields
exactly its composite key with its value, the key list is exactly the list
of composites (hence distinct), and no top-level task key remains. -/
theorem C1_flatten_bijection (st st1 : LoggerState) (b : Dict PyVal)
    (entries : List (String × PyVal))
    (hpi : post_init st b = .ok st1)
    (hres : dictGet b "results" = some (.pyDict entries))
    (h1 : ∀ p ∈ entries, ∃ ms, p.2 = PyVal.pyDict ms ∧ (ms.map Prod.fst).Nodup)
    (h3 : (entries.map Prod.fst).Nodup)
    (h5 : ((taskMetricPairs entries).map (fun q => compositeKey q.1 q.2.1)).Nodup)
    (h6 : ∀ q ∈ taskMetricPairs entries, compositeKey q.1 q.2.1 ∉ entries.map Prod.fst) :
    sanitize_results_dict st1.results st1.task_names = .ok (specFlatten entries) ∧
    dictKeys (specFlatten entries) =
      (taskMetricPairs entries).map (fun q => compositeKey q.1 q.2.1) ∧
    (∀ q ∈ taskMetricPairs entries,
      dictGet (specFlatten entries) (compositeKey q.1 q.2.1) = some q.2.2) ∧
    (∀ t ∈ entries.map Prod.fst, dictGet (specFlatten entries) t = none) := by
  unfold post_init at hpi
  rw [hres] at hpi
  simp only [Option.getD_some] at hpi
  have hst1 : st1.results = b ∧ st1.task_names = entries.map Prod.fst := by
    injection hpi with hr
    subst hr
    exact ⟨rfl, rfl⟩
  have hkeys : dictKeys (specFlatten entries) =
      (taskMetricPairs entries).map (fun q => compositeKey q.1 q.2.1) := by
    unfold specFlatten dictKeys
    rw [List.map_map]
    rfl
  refine ⟨?_, hkeys, ?_, ?_⟩
  · rw [hst1.1, hst1.2]
    exact sanitize_eq_specFlatten hres h1 h3 h5 h6
  · intro q hq
    apply dictGet_of_mem_nodup
    · rw [show (specFlatten entries).map Prod.fst = dictKeys (specFlatten entries) from rfl,
        hkeys]
      exact h5
    · exact List.mem_map_of_mem _ hq
  · intro t ht
    apply dictGet_eq_none_of_not_mem
    rw [hkeys]
    intro hmem
    obtain ⟨q, hq, hqe⟩ := List.mem_map.mp hmem
    rw [← hqe] at ht
    exact h6 q hq ht

/-- Witness for the amended claim C1 at the example bundle of the spec. -/
theorem C1_flatten_bijection_witness :
    sanitize_results_dict exampleState.results exampleState.task_names =
      .ok (specFlatten exampleEntries) ∧
    dictKeys (specFlatten exampleEntries) =
      (taskMetricPairs exampleEntries).map (fun q => compositeKey q.1 q.2.1) ∧
    (∀ q ∈ taskMetricPairs exampleEntries,
      dictGet (specFlatten exampleEntries) (compositeKey q.1 q.2.1) = some q.2.2) ∧
    (∀ t ∈ exampleEntries.map Prod.fst, dictGet (specFlatten exampleEntries) t = none) :=
  C1_flatten_bijection freshLogger exampleState exampleBundle exampleEntries rfl rfl
    (by
      intro p hp
      rw [show exampleEntries =
        [("taskA", PyVal.pyDict [("acc", .pyInt 5), ("acc_stderr", .pyInt 1)])] from rfl,
        List.mem_singleton] at hp
      subst hp
      exact ⟨_, rfl, by decide⟩)
    (by decide) (by decide) (by decide)

/-- Claim C2 mis-describes the missing-SDK case: the `ImportError` is caught
and logged, but `__init__` then evaluates `wandb.run` (line 50), where
`wandb` is an unbound local, so construction itself raises rather than
completing in a degraded state.  The below-minimum-version case does behave
as claimed: construction completes with a warning. -/
theorem C2_init_raises_when_sdk_missing :
    wandbLoggerInit { installed := false, version := [], hasActiveRun := false } [] =
      .error "UnboundLocalError: cannot access local variable wandb" ∧
    (∃ r, wandbLoggerInit { installed := true, version := [0, 13, 5], hasActiveRun := false }
        [] = .ok r ∧ r.warned = true) :=
  ⟨rfl, _, rfl, rfl⟩

/-- Claim C10: the `wandb.require` branch at line 35 is unreachable — its
guard `Version(wandb.__version__) < Version("0.13.6")` is evaluated only
after the assertion at line 33 has established the opposite, so it is always
false and `requireCalled` never becomes true. -/
theorem C10_require_branch_unreachable (sdk : Sdk) :
    (initTryBlock sdk).requireCalled = false := by
  unfold initTryBlock
  split_ifs <;> rfl


/-- Claim C3: for every value the JSON encoder cannot serialize natively,
the fallback applies in the documented order — sized integer types coerce to
plain integers, set-like collections coerce to sequences in iteration order,
and everything else coerces to its string form — and the serializer factors
through the fallback on such values, so `jsonDumps` is total: serialization
never raises merely because of the type of a value. -/
theorem C3_serialization_fallback (o : PyVal) (h : nativelySerializable o = false) :
    jsonDumps o = jsonDumps (handle_non_serializable o) ∧
    (∀ n, o = .npInt64 n → handle_non_serializable o = .pyInt n) ∧
    (∀ n, o = .npInt32 n → handle_non_serializable o = .pyInt n) ∧
    (∀ xs, o = .pySet xs → handle_non_serializable o = .pyList xs) ∧
    (isNpInt o = false → isSet o = false →
      handle_non_serializable o = .pyStr (pyToString o)) := by
  cases o <;>
    simp_all [handle_non_serializable, isNpInt, isSet, nativelySerializable,
      jsonDumps, jsonDumpsList, pyToString]

/-- Witness for claim C3 at the concrete value `np.int64(3)` wrapped in a set. -/
theorem C3_serialization_fallback_witness :
    jsonDumps (.pySet [.npInt64 3]) =
      jsonDumps (handle_non_serializable (.pySet [.npInt64 3])) ∧
    (∀ n, (PyVal.pySet [.npInt64 3]) = .npInt64 n →
      handle_non_serializable (.pySet [.npInt64 3]) = .pyInt n) ∧
    (∀ n, (PyVal.pySet [.npInt64 3]) = .npInt32 n →
      handle_non_serializable (.pySet [.npInt64 3]) = .pyInt n) ∧
    (∀ xs, (PyVal.pySet [.npInt64 3]) = .pySet xs →
      handle_non_serializable (.pySet [.npInt64 3]) = .pyList xs) ∧
    (isNpInt (.pySet [.npInt64 3]) = false → isSet (.pySet [.npInt64 3]) = false →
      handle_non_serializable (.pySet [.npInt64 3]) =
        .pyStr (pyToString (.pySet [.npInt64 3]))) :=
  C3_serialization_fallback (.pySet [.npInt64 3]) rfl

/-- Claim C4: the stored results bundle is never mutated by this component —
`post_init` stores a (deep-copied, hence value-equal) bundle, and
`log_eval_result` (metric logging plus artifact logging) leaves the stored
bundle and recorded task names unchanged, so the original bundle of the caller,
which after the deep copy shares no mutable state with the logger, is
untouched. -/
theorem C4_results_never_mutated :
    (∀ (st st1 : LoggerState) (b : Dict PyVal),
      post_init st b = .ok st1 → st1.results = b) ∧
    (∀ st : LoggerState,
      (log_eval_result st).finalState.results = st.results ∧
      (log_eval_result st).finalState.task_names = st.task_names) := by
  constructor
  · intro st st1 b hpi
    unfold post_init at hpi
    split at hpi
    · injection hpi with hr
      subst hr
      rfl
    · cases hpi
  · intro st
    exact ⟨log_eval_result_results_unchanged st, log_eval_result_task_names_unchanged st⟩

/-- Witness for claim C4 at the example bundle. -/
theorem C4_results_never_mutated_witness :
    exampleState.results = exampleBundle ∧
    (log_eval_result exampleState).finalState.results = exampleState.results :=
  ⟨C4_results_never_mutated.1 freshLogger exampleState exampleBundle rfl,
    (C4_results_never_mutated.2 exampleState).1⟩

/-- Claim C5: the constructor extracts and removes `step` (default `0`) and
`step_key` (default `"train/step"`) from the kwargs, and every remaining key
is passed through verbatim — unchanged — in `self.wandb_args`, which is
exactly what `wandb.init` receives when no run is already active. -/
theorem C5_kwargs_passthrough (sdk : Sdk) (kwargs : Dict PyVal) (r : InitResult)
    (hnd : (kwargs.map Prod.fst).Nodup)
    (hok : wandbLoggerInit sdk kwargs = .ok r) :
    r.step = (dictGet kwargs "step").getD (.pyInt 0) ∧
    r.step_key = (dictGet kwargs "step_key").getD (.pyStr "train/step") ∧
    dictGet r.wandb_args "step" = none ∧
    dictGet r.wandb_args "step_key" = none ∧
    (∀ k, k ≠ "step" → k ≠ "step_key" → dictGet r.wandb_args k = dictGet kwargs k) ∧
    (sdk.hasActiveRun = false → r.wandbInitArgs = some r.wandb_args) := by
  unfold wandbLoggerInit at hok
  by_cases hb : (initTryBlock sdk).wandbBound
  · rw [if_pos hb] at hok
    injection hok with hr
    subst hr
    refine ⟨rfl, rfl, ?_, ?_, ?_, ?_⟩
    · rw [dictGet_dictErase_ne (by decide : ("step" : String) ≠ "step_key")]
      exact dictGet_dictErase_self hnd
    · exact dictGet_dictErase_self (nodup_dictErase _ hnd)
    · intro k hk1 hk2
      rw [dictGet_dictErase_ne hk2, dictGet_dictErase_ne hk1]
    · intro har
      simp [har]
  · rw [if_neg hb] at hok
    cases hok

/-- Witness for claim C5 at concrete kwargs `{"project": "x", "step": 7}`. -/
theorem C5_kwargs_passthrough_witness :
    c5res.step = .pyInt 7 ∧
    c5res.step_key = .pyStr "train/step" ∧
    dictGet c5res.wandb_args "step" = none ∧
    dictGet c5res.wandb_args "step_key" = none ∧
    (∀ k, k ≠ "step" → k ≠ "step_key" → dictGet c5res.wandb_args k = dictGet c5kwargs k) ∧
    (false = false → c5res.wandbInitArgs = some c5res.wandb_args) :=
  C5_kwargs_passthrough { installed := true, version := [0, 13, 6], hasActiveRun := false }
    c5kwargs c5res (by decide) rfl

/-- Claim C6 is right about the tolerance of malformed bundles — a bundle
with no `config`, no `results`, or an empty `results` mapping attaches
without raising and flattens to just the injected step key, and those
metrics are logged — but `log_eval_result` then always raises `NameError`
at `wandb.Artifact` (line 100): the module never imports `wandb` at top
level, only `__init__` binds it as a function-local name, so the operation
does not complete without raising for any bundle. -/
theorem C6_malformed_bundles :
    toleratedButRaises bundleMissingBoth ∧
    toleratedButRaises bundleMissingResults ∧
    toleratedButRaises bundleEmptyResults :=
  ⟨⟨_, rfl, rfl, rfl, rfl⟩, ⟨_, rfl, rfl, rfl, rfl⟩, ⟨_, rfl, rfl, rfl, rfl⟩⟩

/-- Claim C7: repeating `log_eval_result` with the stored bundle and step
unchanged produces the identical flattened mapping — the operation never
modifies the fields the flattening reads, and the computation is a pure
function of those fields. -/
theorem C7_log_metrics_idempotent (st : LoggerState) :
    (log_eval_result (log_eval_result st).finalState).logged =
      (log_eval_result st).logged := by
  unfold log_eval_result
  rcases h : sanitize_results_dict st.results st.task_names with e | r <;>
    simp [h, moduleBindsWandb]

/-- Witness for claim C7 at the example state. -/
theorem C7_log_metrics_idempotent_witness :
    (log_eval_result (log_eval_result exampleState).finalState).logged =
      (log_eval_result exampleState).logged :=
  C7_log_metrics_idempotent exampleState

/-- Claim C8: the JSON artifact text, parsed back, reproduces the stored
bundle up to the documented decodings — sized integers as plain integers,
sets as sequences of the same elements, other unsupported values as their
string form (`specRoundTrip`). -/
theorem C8_artifact_round_trip (st : LoggerState) (d : JVal)
    (hd : (log_eval_result st).artifactDumped = some d) :
    jvalToPy d = specRoundTrip (.pyDict st.results) := by
  unfold log_eval_result at hd
  rcases h : sanitize_results_dict st.results st.task_names with e | r <;>
    simp [h, moduleBindsWandb] at hd
  rw [← hd]
  exact jsonDumps_roundTrip _

/-- Witness for claim C8 at the example state. -/
theorem C8_artifact_round_trip_witness :
    jvalToPy (jsonDumps (.pyDict exampleState.results)) =
      specRoundTrip (.pyDict exampleState.results) :=
  C8_artifact_round_trip exampleState (jsonDumps (.pyDict exampleState.results)) rfl

/-- Claim C9, as stated, is false: with run configuration `{"seed": 1}` and
bundle config `{"seed": 0}`, a key-by-key merge would overwrite `"seed"`,
but the code updates the run configuration with the single nested entry
`{"bigcode_eval": {...}}`, so `"seed"` keeps its old value. -/
theorem C9_config_merge_cex :
    applyConfigUpdate c9RunConfig ((log_eval_result c9State).configUpdated) =
      [("seed", .pyInt 1), ("bigcode_eval", .pyDict [("seed", .pyInt 0)])] ∧
    dictGet (applyConfigUpdate c9RunConfig ((log_eval_result c9State).configUpdated))
      "seed" ≠ some (.pyInt 0) := by
  refine ⟨rfl, fun h => ?_⟩
  rw [show dictGet (applyConfigUpdate c9RunConfig ((log_eval_result c9State).configUpdated))
      "seed" = some (.pyInt 1) from rfl] at h
  injection h with h1
  injection h1 with h2
  exact absurd h2 (by decide)

/-- Claim C9, amended: the log-metrics operation does not merge the stored
config mapping of the bundle key by key; it merges the single entry
`{"bigcode_eval": <config mapping>}` into the persisted configuration of the
tracking run, overwriting only an existing `"bigcode_eval"` entry and
leaving every other run-configuration key unchanged. -/
theorem C9_config_nested_under_key (rc : Dict PyVal) (st : LoggerState) :
    (log_eval_result st).configUpdated =
      [("bigcode_eval", (dictGet st.results "config").getD (.pyDict []))] ∧
    applyConfigUpdate rc ((log_eval_result st).configUpdated) =
      dictSet rc "bigcode_eval" ((dictGet st.results "config").getD (.pyDict [])) ∧
    (∀ k, k ≠ "bigcode_eval" →
      dictGet (applyConfigUpdate rc ((log_eval_result st).configUpdated)) k =
        dictGet rc k) := by
  have hcu : (log_eval_result st).configUpdated = configUpdatePayload st :=
    log_eval_result_configUpdated st
  refine ⟨hcu, ?_, ?_⟩
  · rw [hcu]
    rfl
  · intro k hk
    rw [hcu, show applyConfigUpdate rc (configUpdatePayload st) =
      dictSet rc "bigcode_eval" ((dictGet st.results "config").getD (.pyDict [])) from rfl]
    exact dictGet_dictSet_ne _ hk


/-- Witness for the amended claim C9 at the concrete run configuration and
state used above. -/
theorem C9_config_nested_under_key_witness :
    (log_eval_result c9State).configUpdated =
      [("bigcode_eval", .pyDict [("seed", .pyInt 0)])] ∧
    applyConfigUpdate c9RunConfig ((log_eval_result c9State).configUpdated) =
      dictSet c9RunConfig "bigcode_eval" (.pyDict [("seed", .pyInt 0)]) ∧
    (∀ k, k ≠ "bigcode_eval" →
      dictGet (applyConfigUpdate c9RunConfig ((log_eval_result c9State).configUpdated)) k =
        dictGet c9RunConfig k) :=
  C9_config_nested_under_key c9RunConfig c9State

/-- Witness for claim C10 at a below-minimum SDK version. -/
theorem C10_require_branch_unreachable_witness :
    (initTryBlock { installed := true, version := [0, 13, 5], hasActiveRun := false }).requireCalled = false :=
  C10_require_branch_unreachable _

end LoggingUtils
